import Mathlib

/-!
Verification development for the graphql-client Go library.

The repository implements a GraphQL HTTP client: a request value object
(query, variables, file attachments, headers), a JSON and a multipart
body encoder, and an execution pipeline `Run` dispatching through an
injectable HTTP transport and decoding a response envelope.

The embedding below translates the source files into Lean definitions:
  - JSON documents become the inductive `Json`; Go maps become
    association lists with overwrite-on-insert semantics.
  - `encoding/json` unmarshalling into the concrete Go target types of
    the source (`GraphErr`, `GraphResponse`, legacy `graphErr`,
    `graphResponse`) becomes explicit decoders over `Json`.
  - The stateful pipeline becomes a pure function from the client, the
    context state, the request and the transport's answer to a trace
    holding the dispatched outgoing requests and the call's outcome.
    Wire-level byte serialisation (JSON text, multipart framing) is a
    library primitive for the source and is modelled at the level of the
    structures handed to those primitives.
-/

namespace GraphqlClient

/-- JSON documents.  Numbers are modelled as integers; objects keep the
textual field order. -/
inductive Json where
  | null
  | bool (b : Bool)
  | num (n : Int)
  | str (s : String)
  | arr (elems : List Json)
  | obj (fields : List (String × Json))

/-- First binding of a key in a JSON object / Go map literal. -/
def lookupField : List (String × Json) → String → Option Json
  | [], _ => none
  | (k2, v) :: rest, k => if k2 = k then some v else lookupField rest k

/-- Go map write `m[k] = v`: overwrite the existing binding, insert
otherwise. -/
def mapInsert : List (String × Json) → String → Json → List (String × Json)
  | [], k, v => [(k, v)]
  | (k2, v2) :: rest, k, v =>
      if k2 = k then (k, v) :: rest else (k2, v2) :: mapInsert rest k v

/-- Go map read `m[k]`. -/
def mapLookup : List (String × Json) → String → Option Json
  | [], _ => none
  | (k2, v) :: rest, k => if k2 = k then some v else mapLookup rest k

/-- Source: `type Location struct { Column int; Line int }`. -/
structure Location where
  Column : Int
  Line : Int

/-- Source (current error model):
`type GraphErr struct { Message interface{}; ErrorExtensions map[string]interface{}; Locations []Location; Path []string }`
with JSON tags message/extensions/locations/path.  The `Message` member
is an untyped interface, so it holds an arbitrary JSON value. -/
structure GraphErr where
  Message : Json
  ErrorExtensions : List (String × Json)
  Locations : List Location
  Path : List String

/-- Source (legacy error model used by the two-target pipeline):
`type graphErr struct { Message string; ErrorExtensions map[string]interface{} }`. -/
structure graphErr where
  Message : String
  ErrorExtensions : List (String × Json)

/-- Source: `type GraphResponse struct { Data interface{}; Errors []GraphErr }`.
`Data` holds whatever JSON value stood under the data key (the caller's
typed target is polymorphic and out of the model's scope). -/
structure GraphResponse where
  Data : Json
  Errors : List GraphErr

/-- Source: legacy `type graphResponse struct { Data interface{}; Errors []graphErr }`. -/
structure graphResponse where
  Data : Json
  Errors : List graphErr

/-- `encoding/json` unmarshalling of one JSON value into a Go `int`
struct member: an absent key or JSON null leaves the zero value, a
number is taken, anything else is a type error. -/
def decodeIntField : Option Json → Option Int
  | none => some 0
  | some Json.null => some 0
  | some (Json.num n) => some n
  | some _ => none

/-- Unmarshalling into `Location`: JSON null leaves the zero struct,
an object reads its column/line members, anything else is a type
error. -/
def decodeLocation : Json → Option Location
  | Json.null => some ⟨0, 0⟩
  | Json.obj fs => do
      let c ← decodeIntField (lookupField fs "column")
      let l ← decodeIntField (lookupField fs "line")
      some ⟨c, l⟩
  | _ => none

/-- Unmarshalling into a `map[string]interface{}` member: absent key or
JSON null gives the nil map, an object gives its bindings, anything
else is a type error. -/
def decodeExtensions : Option Json → Option (List (String × Json))
  | none => some []
  | some Json.null => some []
  | some (Json.obj fs) => some fs
  | some _ => none

/-- Unmarshalling one element of a `[]string` member. -/
def decodeStringElem : Json → Option String
  | Json.null => some ""
  | Json.str s => some s
  | _ => none

/-- Unmarshalling into `GraphErr`: the message member is an untyped
interface and accepts any JSON value; extensions, locations and path
are typed and fail on a shape mismatch; unknown keys are ignored;
absent keys keep the zero values. -/
def decodeGraphErr : Json → Option GraphErr
  | Json.null => some ⟨Json.null, [], [], []⟩
  | Json.obj fs => do
      let msg := (lookupField fs "message").getD Json.null
      let ext ← decodeExtensions (lookupField fs "extensions")
      let locs ← match lookupField fs "locations" with
        | none => some []
        | some Json.null => some []
        | some (Json.arr xs) => xs.mapM decodeLocation
        | some _ => none
      let path ← match lookupField fs "path" with
        | none => some []
        | some Json.null => some []
        | some (Json.arr xs) => xs.mapM decodeStringElem
        | some _ => none
      some ⟨msg, ext, locs, path⟩
  | _ => none

/-- Unmarshalling into the unified `GraphResponse` envelope from a
non-null JSON document: Go matches the untagged members `Data` and
`Errors` against the lowercase wire keys. -/
def decodeGraphResponse : Json → Option GraphResponse
  | Json.obj fs => do
      let d := (lookupField fs "data").getD Json.null
      let e ← match lookupField fs "errors" with
        | none => some []
        | some Json.null => some []
        | some (Json.arr xs) => xs.mapM decodeGraphErr
        | some _ => none
      some ⟨d, e⟩
  | _ => none

/-- Unmarshalling into the legacy `graphErr`: its `Message` member is a
plain Go string, so a structured message value is a type error. -/
def decodeLegacyErr : Json → Option graphErr
  | Json.null => some ⟨"", []⟩
  | Json.obj fs => do
      let msg ← match lookupField fs "message" with
        | none => some ""
        | some Json.null => some ""
        | some (Json.str s) => some s
        | some _ => none
      let ext ← decodeExtensions (lookupField fs "extensions")
      some ⟨msg, ext⟩
  | _ => none

/-- Unmarshalling into the legacy `graphResponse` envelope from a
non-null JSON document. -/
def decodeLegacyResponse : Json → Option graphResponse
  | Json.obj fs => do
      let d := (lookupField fs "data").getD Json.null
      let e ← match lookupField fs "errors" with
        | none => some []
        | some Json.null => some []
        | some (Json.arr xs) => xs.mapM decodeLegacyErr
        | some _ => none
      some ⟨d, e⟩
  | _ => none

/-- Source: `type File struct { Field string; Name string; R io.Reader }`.
The reader `R` is modelled by the byte content it yields. -/
structure File where
  Field : String
  Name : String
  R : String

/-- Source: `type GraphRequest struct { query string; vars map[string]interface{}; files []File; Header http.Header }`.
The legacy `GraphqlRequest` is declared field for field identically and
is modelled by the same structure.  `vars = none` models the nil map. -/
structure GraphRequest where
  query : String
  vars : Option (List (String × Json))
  files : List File
  Header : List (String × List String)

/-- Source: `NewGraphqlRequest(query)` — nil variables map, no files,
fresh empty header map. -/
def NewGraphqlRequest (query : String) : GraphRequest :=
  ⟨query, none, [], []⟩

/-- Source: `(req *GraphRequest) Var(key, value)` — lazily allocates the
variables map on first use, then writes `req.vars[key] = value`. -/
def GraphRequest.Var (req : GraphRequest) (key : String) (value : Json) : GraphRequest :=
  match req.vars with
  | none => { req with vars := some (mapInsert [] key value) }
  | some m => { req with vars := some (mapInsert m key value) }

/-- Source: `(req *GraphRequest) File(fieldname, filename, r)` — appends
an attachment. -/
def GraphRequest.File (req : GraphRequest) (fieldname filename : String) (r : String) : GraphRequest :=
  { req with files := req.files ++ [⟨fieldname, filename, r⟩] }

/-- A whole sequence of `Var` calls applied in order. -/
def applyVars (req : GraphRequest) (calls : List (String × Json)) : GraphRequest :=
  calls.foldl (fun r kv => r.Var kv.1 kv.2) req

/-- Source: the configuration part of `type Client struct` — endpoint
url, multipart toggle, immediate-close toggle.  The transport and the
log sink are injected per call in this model (the sink never affects
control flow). -/
structure Client where
  url : String
  useMultipartForm : Bool
  closeReq : Bool

/-- Source: `NewClient(url, opts...)` before options are applied. -/
def NewClient (url : String) : Client :=
  ⟨url, false, false⟩

/-- Source: the `UseMultipartForm()` client option. -/
def UseMultipartForm (c : Client) : Client :=
  { c with useMultipartForm := true }

/-- Source: the `ImmediatelyCloseReqBody()` client option. -/
def ImmediatelyCloseReqBody (c : Client) : Client :=
  { c with closeReq := true }

/-- `net/http` header maps: canonical header name to its ordered value
sequence. -/
abbrev Header := List (String × List String)

/-- `http.Header.Set`: replace the binding of a key with the single
value. -/
def headerSet : Header → String → String → Header
  | [], k, v => [(k, [v])]
  | (k2, vs) :: rest, k, v =>
      if k2 = k then (k, [v]) :: rest else (k2, vs) :: headerSet rest k v

/-- `http.Header.Add`: append one value to the binding of a key,
creating the binding when absent. -/
def headerAdd : Header → String → String → Header
  | [], k, v => [(k, [v])]
  | (k2, vs) :: rest, k, v =>
      if k2 = k then (k2, vs ++ [v]) :: rest else (k2, vs) :: headerAdd rest k v

/-- `http.Header` read: the ordered value sequence of a key (empty when
absent). -/
def headerGet : Header → String → List String
  | [], _ => []
  | (k2, vs) :: rest, k => if k2 = k then vs else headerGet rest k

/-- All values bound to a key anywhere in a header-shaped list, in
order (on a real Go header map this coincides with `headerGet`). -/
def valsIn : Header → String → List String
  | [], _ => []
  | (k2, vs) :: rest, k => (if k2 = k then vs else []) ++ valsIn rest k

/-- `Add` every value of every entry of a request header on top of a
header. -/
def addAll (h : Header) (entries : Header) : Header :=
  entries.foldl (fun acc kv => kv.2.foldl (fun a v => headerAdd a kv.1 v) acc) h

/-- Source `addHTTPHeaders`: on the fresh outgoing request set
Content-Type to the encoder's value, set Accept, then `Add` every
value of every request header entry.  The per-key results do not
depend on the order Go's map iteration visits distinct keys in. -/
def addHTTPHeaders (reqHeader : Header) (contentType : String) : Header :=
  addAll (headerSet (headerSet [] "Content-Type" contentType)
            "Accept" "application/json; charset=utf-8") reqHeader

/-- The fixed JSON-mode content type of the source. -/
def jsonContentType : String := "application/json; charset=utf-8"

/-- `multipart.Writer.FormDataContentType()` for a given boundary. -/
def formDataContentType (boundary : String) : String :=
  "multipart/form-data; boundary=" ++ boundary

/-- JSON encoding of the `Variables map[string]interface{}` member of
`graphqlModel`: the nil map encodes as JSON null, any other map as an
object. -/
def varsToJson : Option (List (String × Json)) → Json
  | none => Json.null
  | some m => Json.obj m

/-- Source `graphqlModel` with tags query/variables, as the JSON
document its encoding produces. -/
def graphqlModel (req : GraphRequest) : Json :=
  Json.obj [("query", Json.str req.query), ("variables", varsToJson req.vars)]

/-- One part of a multipart/form-data body: a plain form field, a form
field holding JSON text, or a file part. -/
inductive Part where
  | field (name value : String)
  | jsonField (name : String) (value : Json)
  | filePart (field name content : String)

/-- `len` of the variables map (nil map has length 0). -/
def varsLen : Option (List (String × Json)) → Nat
  | none => 0
  | some m => m.length

/-- The multipart body built by `runWithPostFields`: the query field,
then — only when the variables map is non-empty — a variables field
holding the JSON encoding of the map, then one file part per
attachment in attachment order with the reader's bytes copied
verbatim. -/
def multipartParts (req : GraphRequest) : List Part :=
  Part.field "query" req.query ::
    ((if varsLen req.vars > 0
        then [Part.jsonField "variables" (Json.obj (req.vars.getD []))]
        else [])
      ++ req.files.map (fun f => Part.filePart f.Field f.Name f.R))

/-- Body of an outgoing HTTP request: the JSON document of
`graphqlModel`, or the multipart part list. -/
inductive ReqBody where
  | json (j : Json)
  | multipart (parts : List Part)

/-- The outgoing HTTP request handed to the transport. -/
structure OutReq where
  method : String
  url : String
  body : ReqBody
  headers : Header
  closeFlag : Bool

/-- The JSON-mode outgoing request built by `runWithJSON`. -/
def buildJSONRequest (c : Client) (req : GraphRequest) : OutReq :=
  { method := "POST"
    url := c.url
    body := ReqBody.json (graphqlModel req)
    headers := addHTTPHeaders req.Header jsonContentType
    closeFlag := c.closeReq }

/-- The multipart outgoing request built by `runWithPostFields`; the
boundary the multipart writer drew is passed in. -/
def buildMultipartRequest (c : Client) (req : GraphRequest) (boundary : String) : OutReq :=
  { method := "POST"
    url := c.url
    body := ReqBody.multipart (multipartParts req)
    headers := addHTTPHeaders req.Header (formDataContentType boundary)
    closeFlag := c.closeReq }

/-- `ctx.Err()` of a done context. -/
inductive CtxErr where
  | canceled
  | deadlineExceeded

/-- The transport's answer to the one dispatched request: a send
failure, or an HTTP response whose fully buffered body either is a
JSON document or is not valid JSON (`none`). -/
inductive TransportResult where
  | netErr (msg : String)
  | resp (status : Nat) (body : Option Json)

/-- Errors the unified `Run` returns. -/
inductive RunError where
  | contextError (e : CtxErr)
  | filesWithPostFields
  | transportError (msg : String)
  | serverNonOK (status : Nat)
  | decodingResponse

/-- Errors the legacy `Run` returns. -/
inductive LegacyRunError where
  | contextError (e : CtxErr)
  | filesWithPostFields
  | transportError (msg : String)
  | serverNonOK (status : Nat)
  | decodingResponse
  | graphQLError (e : graphErr)

/-- Result of decoding the buffered body into the envelope pointer:
not valid JSON (or wrong shape) fails the decode; the JSON literal
null succeeds and sets the envelope pointer itself to nil; any other
document decodes through the envelope decoder. -/
inductive EnvelopeOutcome (α : Type) where
  | decodeFail
  | nilEnvelope
  | ok (gr : α)

/-- Run the envelope decoder the way `json.Decoder.Decode(&envelope)`
behaves on the buffered body. -/
def envelopeOf {α : Type} (dec : Json → Option α) : Option Json → EnvelopeOutcome α
  | none => EnvelopeOutcome.decodeFail
  | some Json.null => EnvelopeOutcome.nilEnvelope
  | some j =>
      match dec j with
      | none => EnvelopeOutcome.decodeFail
      | some gr => EnvelopeOutcome.ok gr

/-- Trace of one unified-pipeline call: the outgoing requests
dispatched through the transport, and the returned pair — `.ok none`
models the `(nil, nil)` return after the body was the JSON literal
null. -/
structure RunResult where
  sends : List OutReq
  outcome : Except RunError (Option GraphResponse)

/-- Source unified `runWithJSON`: encode `graphqlModel`, build the
POST request, dispatch, buffer the body, then fail on a non-200 status
before any decode; otherwise decode the envelope. -/
def runWithJSON (c : Client) (req : GraphRequest) (t : TransportResult) : RunResult :=
  let out := buildJSONRequest c req
  match t with
  | TransportResult.netErr m => ⟨[out], Except.error (RunError.transportError m)⟩
  | TransportResult.resp status body =>
      ⟨[out],
        if status ≠ 200 then Except.error (RunError.serverNonOK status)
        else
          match envelopeOf decodeGraphResponse body with
          | EnvelopeOutcome.decodeFail => Except.error RunError.decodingResponse
          | EnvelopeOutcome.nilEnvelope => Except.ok none
          | EnvelopeOutcome.ok gr => Except.ok (some gr)⟩

/-- Source unified `runWithPostFields`: build the multipart body and
POST request, dispatch, buffer the body, decode the envelope first,
and only when that decode fails consult the status code. -/
def runWithPostFields (c : Client) (req : GraphRequest) (boundary : String)
    (t : TransportResult) : RunResult :=
  let out := buildMultipartRequest c req boundary
  match t with
  | TransportResult.netErr m => ⟨[out], Except.error (RunError.transportError m)⟩
  | TransportResult.resp status body =>
      ⟨[out],
        match envelopeOf decodeGraphResponse body with
        | EnvelopeOutcome.ok gr => Except.ok (some gr)
        | EnvelopeOutcome.nilEnvelope => Except.ok none
        | EnvelopeOutcome.decodeFail =>
            if status ≠ 200 then Except.error (RunError.serverNonOK status)
            else Except.error RunError.decodingResponse⟩

/-- Source unified `Client.Run`: the done-context guard, then the
files/multipart-mode guard, then mode dispatch.  `ctx = some e` models
a context whose `Done` channel is already closed with `ctx.Err() = e`. -/
def Run (c : Client) (ctx : Option CtxErr) (req : GraphRequest) (boundary : String)
    (t : TransportResult) : RunResult :=
  match ctx with
  | some e => ⟨[], Except.error (RunError.contextError e)⟩
  | none =>
      if !req.files.isEmpty && !c.useMultipartForm then
        ⟨[], Except.error RunError.filesWithPostFields⟩
      else if c.useMultipartForm then runWithPostFields c req boundary t
      else runWithJSON c req t

/-- Call-level outcome of the legacy two-target pipeline: a nil error,
a returned error, or the nil-pointer dereference that `len(gr.Errors)`
hits after the JSON literal null set the envelope pointer to nil. -/
inductive LegacyOutcome where
  | success
  | fail (e : LegacyRunError)
  | nilEnvelopeCrash

/-- Trace of one legacy-pipeline call.  `errorTarget` is what the
best-effort `json.Unmarshal(buf.Bytes(), &errorResp)` left in the
caller's error-shape target: `none` means the target was left
unmodified (the unmarshal never ran or its failure was discarded). -/
structure LegacyResult where
  sends : List OutReq
  errorTarget : Option Json
  outcome : LegacyOutcome

/-- Source legacy `runWithJSON`: on a non-200 status, best-effort
unmarshal the body into the error target and return the status error;
on 200, decode the envelope and surface the first GraphQL error when
the list is non-empty. -/
def legacyRunWithJSON (c : Client) (req : GraphRequest) (t : TransportResult) : LegacyResult :=
  let out := buildJSONRequest c req
  match t with
  | TransportResult.netErr m => ⟨[out], none, LegacyOutcome.fail (LegacyRunError.transportError m)⟩
  | TransportResult.resp status body =>
      if status ≠ 200 then
        ⟨[out], body, LegacyOutcome.fail (LegacyRunError.serverNonOK status)⟩
      else
        match envelopeOf decodeLegacyResponse body with
        | EnvelopeOutcome.decodeFail => ⟨[out], none, LegacyOutcome.fail LegacyRunError.decodingResponse⟩
        | EnvelopeOutcome.nilEnvelope => ⟨[out], none, LegacyOutcome.nilEnvelopeCrash⟩
        | EnvelopeOutcome.ok gr =>
            match gr.Errors with
            | [] => ⟨[out], none, LegacyOutcome.success⟩
            | e :: _ => ⟨[out], none, LegacyOutcome.fail (LegacyRunError.graphQLError e)⟩

/-- Source legacy `runWithPostFields`: decode the envelope first; only
when that decode fails consult the status code, best-effort unmarshal
the body into the error target and return the status error. -/
def legacyRunWithPostFields (c : Client) (req : GraphRequest) (boundary : String)
    (t : TransportResult) : LegacyResult :=
  let out := buildMultipartRequest c req boundary
  match t with
  | TransportResult.netErr m => ⟨[out], none, LegacyOutcome.fail (LegacyRunError.transportError m)⟩
  | TransportResult.resp status body =>
      match envelopeOf decodeLegacyResponse body with
      | EnvelopeOutcome.ok gr =>
          match gr.Errors with
          | [] => ⟨[out], none, LegacyOutcome.success⟩
          | e :: _ => ⟨[out], none, LegacyOutcome.fail (LegacyRunError.graphQLError e)⟩
      | EnvelopeOutcome.nilEnvelope => ⟨[out], none, LegacyOutcome.nilEnvelopeCrash⟩
      | EnvelopeOutcome.decodeFail =>
          if status ≠ 200 then
            ⟨[out], body, LegacyOutcome.fail (LegacyRunError.serverNonOK status)⟩
          else ⟨[out], none, LegacyOutcome.fail LegacyRunError.decodingResponse⟩

/-- Source legacy `Client.Run`: same guards as the unified form, then
mode dispatch into the legacy pipelines. -/
def RunLegacy (c : Client) (ctx : Option CtxErr) (req : GraphRequest) (boundary : String)
    (t : TransportResult) : LegacyResult :=
  match ctx with
  | some e => ⟨[], none, LegacyOutcome.fail (LegacyRunError.contextError e)⟩
  | none =>
      if !req.files.isEmpty && !c.useMultipartForm then
        ⟨[], none, LegacyOutcome.fail LegacyRunError.filesWithPostFields⟩
      else if c.useMultipartForm then legacyRunWithPostFields c req boundary t
      else legacyRunWithJSON c req t

/-- Value of the first form field of a given name in a multipart body. -/
def partsField : List Part → String → Option String
  | [], _ => none
  | Part.field n v :: rest, name => if n = name then some v else partsField rest name
  | _ :: rest, name => partsField rest name

/-- JSON value of the first JSON-text form field of a given name in a
multipart body. -/
def partsJsonField : List Part → String → Option Json
  | [], _ => none
  | Part.jsonField n v :: rest, name => if n = name then some v else partsJsonField rest name
  | _ :: rest, name => partsJsonField rest name

/-- The file parts of a multipart body, in order, as
(field name, file name, content) triples. -/
def partsFiles : List Part → List (String × String × String)
  | [] => []
  | Part.filePart f n c :: rest => (f, n, c) :: partsFiles rest
  | _ :: rest => partsFiles rest

/-- Lookup in the request's variables map (nil map yields nothing). -/
def varsLookup : Option (List (String × Json)) → String → Option Json
  | none, _ => none
  | some m, k => mapLookup m k

/-- The spec's sample error body
`{"data":null,"errors":[{"message":"not found","path":["item"]}]}`. -/
def sampleErrorBody : Json :=
  Json.obj [("data", Json.null),
            ("errors", Json.arr [Json.obj [("message", Json.str "not found"),
                                           ("path", Json.arr [Json.str "item"])]])]

/-- The sample decoded error of `sampleErrorBody`. -/
def sampleGraphErr : GraphErr :=
  ⟨Json.str "not found", [], [], ["item"]⟩

/-! Helper lemmas. -/

theorem mapLookup_mapInsert (m : List (String × Json)) (k0 k : String) (v : Json) :
    mapLookup (mapInsert m k0 v) k = if k0 = k then some v else mapLookup m k := by
  induction m with
  | nil => rfl
  | cons kv rest ih =>
      obtain ⟨k2, v2⟩ := kv
      by_cases h2 : k2 = k0 <;> by_cases hk : k0 = k <;> by_cases h3 : k2 = k <;>
        simp_all [mapInsert, mapLookup]

theorem varsLookup_Var (r : GraphRequest) (k0 k : String) (v : Json) :
    varsLookup ((r.Var k0 v).vars) k = if k0 = k then some v else varsLookup r.vars k := by
  cases hr : r.vars with
  | none => simp [GraphRequest.Var, hr, varsLookup, mapInsert, mapLookup]
  | some m => simp [GraphRequest.Var, hr, varsLookup, mapLookup_mapInsert]

theorem varsLookup_applyVars (calls : List (String × Json)) (r : GraphRequest) (k : String) :
    varsLookup (applyVars r calls).vars k
      = calls.foldl (fun acc kv => if kv.1 = k then some kv.2 else acc)
          (varsLookup r.vars k) := by
  induction calls generalizing r with
  | nil => rfl
  | cons kv rest ih =>
      have h1 : applyVars r (kv :: rest) = applyVars (r.Var kv.1 kv.2) rest := rfl
      rw [h1, ih, List.foldl_cons, varsLookup_Var]

theorem Var_query (r : GraphRequest) (k : String) (v : Json) : (r.Var k v).query = r.query := by
  cases hr : r.vars <;> simp [GraphRequest.Var, hr]

theorem Var_files (r : GraphRequest) (k : String) (v : Json) : (r.Var k v).files = r.files := by
  cases hr : r.vars <;> simp [GraphRequest.Var, hr]

theorem Var_vars_isSome (r : GraphRequest) (k : String) (v : Json) :
    ((r.Var k v).vars).isSome = true := by
  cases hr : r.vars <;> simp [GraphRequest.Var, hr]

theorem applyVars_query (calls : List (String × Json)) (r : GraphRequest) :
    (applyVars r calls).query = r.query := by
  induction calls generalizing r with
  | nil => rfl
  | cons kv rest ih =>
      have h1 : applyVars r (kv :: rest) = applyVars (r.Var kv.1 kv.2) rest := rfl
      rw [h1, ih, Var_query]

theorem applyVars_files (calls : List (String × Json)) (r : GraphRequest) :
    (applyVars r calls).files = r.files := by
  induction calls generalizing r with
  | nil => rfl
  | cons kv rest ih =>
      have h1 : applyVars r (kv :: rest) = applyVars (r.Var kv.1 kv.2) rest := rfl
      rw [h1, ih, Var_files]

theorem applyVars_vars_isSome (calls : List (String × Json)) (r : GraphRequest)
    (h : r.vars.isSome = true) : ((applyVars r calls).vars).isSome = true := by
  induction calls generalizing r with
  | nil => exact h
  | cons kv rest ih =>
      have h1 : applyVars r (kv :: rest) = applyVars (r.Var kv.1 kv.2) rest := rfl
      rw [h1]
      exact ih _ (Var_vars_isSome r kv.1 kv.2)

theorem headerGet_headerAdd_self (h : Header) (k v : String) :
    headerGet (headerAdd h k v) k = headerGet h k ++ [v] := by
  induction h with
  | nil => simp [headerAdd, headerGet]
  | cons kv rest ih =>
      obtain ⟨k2, vs⟩ := kv
      by_cases hk : k2 = k
      · subst hk; simp [headerAdd, headerGet]
      · simp [headerAdd, headerGet, hk, ih]

theorem headerGet_headerAdd_ne (h : Header) (k v k2 : String) (hne : k ≠ k2) :
    headerGet (headerAdd h k v) k2 = headerGet h k2 := by
  induction h with
  | nil => simp [headerAdd, headerGet, hne]
  | cons kv rest ih =>
      obtain ⟨k3, vs⟩ := kv
      by_cases h3 : k3 = k
      · subst h3
        simp [headerAdd, headerGet, hne]
      · simp [headerAdd, headerGet, h3, ih]

theorem headerGet_foldAdd (vs : List String) (h : Header) (k0 k : String) :
    headerGet (vs.foldl (fun a v => headerAdd a k0 v) h) k
      = headerGet h k ++ (if k0 = k then vs else []) := by
  induction vs generalizing h with
  | nil => simp
  | cons v tl ih =>
      rw [List.foldl_cons, ih]
      by_cases hk : k0 = k
      · subst hk
        rw [headerGet_headerAdd_self]
        simp
      · rw [headerGet_headerAdd_ne _ _ _ _ hk]
        simp [hk]

theorem headerGet_addAll (entries : Header) (h : Header) (k : String) :
    headerGet (addAll h entries) k = headerGet h k ++ valsIn entries k := by
  induction entries generalizing h with
  | nil => simp [addAll, valsIn]
  | cons kv rest ih =>
      obtain ⟨k0, vs⟩ := kv
      show headerGet (addAll (vs.foldl (fun a v => headerAdd a k0 v) h) rest) k = _
      rw [ih, headerGet_foldAdd]
      simp [valsIn, List.append_assoc]

theorem addHTTPHeaders_contentType (hdr : Header) (ct : String) :
    headerGet (addHTTPHeaders hdr ct) "Content-Type"
      = ct :: valsIn hdr "Content-Type" := by
  rw [addHTTPHeaders, headerGet_addAll]
  rfl

theorem addHTTPHeaders_accept (hdr : Header) (ct : String) :
    headerGet (addHTTPHeaders hdr ct) "Accept"
      = "application/json; charset=utf-8" :: valsIn hdr "Accept" := by
  rw [addHTTPHeaders, headerGet_addAll]
  rfl

theorem addHTTPHeaders_other (hdr : Header) (ct k : String)
    (h1 : k ≠ "Content-Type") (h2 : k ≠ "Accept") :
    headerGet (addHTTPHeaders hdr ct) k = valsIn hdr k := by
  rw [addHTTPHeaders, headerGet_addAll]
  have hbase : headerGet (headerSet (headerSet [] "Content-Type" ct)
      "Accept" "application/json; charset=utf-8") k = [] := by
    simp [headerSet, headerGet, Ne.symm h1, Ne.symm h2]
  rw [hbase, List.nil_append]

theorem partsJsonField_filePartMap (l : List File) (name : String) :
    partsJsonField (l.map (fun f => Part.filePart f.Field f.Name f.R)) name = none := by
  induction l with
  | nil => rfl
  | cons a as ih => simpa [partsJsonField] using ih

theorem partsFiles_filePartMap (l : List File) :
    partsFiles (l.map (fun f => Part.filePart f.Field f.Name f.R))
      = l.map (fun f => (f.Field, f.Name, f.R)) := by
  induction l with
  | nil => rfl
  | cons a as ih => simpa [partsFiles] using ih

/-! Claim theorems. -/

/-- Claim C3: for every request carrying at least one file attachment
and every client not configured for multipart mode, both the unified
and the legacy `Run` (with a live context) return the
configuration-mismatch error and dispatch nothing through the
transport. -/
theorem c3_files_require_multipart (c : Client) (req : GraphRequest) (b : String)
    (t : TransportResult) (hf : req.files ≠ []) (hm : c.useMultipartForm = false) :
    Run c none req b t = ⟨[], Except.error RunError.filesWithPostFields⟩
  ∧ RunLegacy c none req b t
      = ⟨[], none, LegacyOutcome.fail LegacyRunError.filesWithPostFields⟩ := by
  obtain ⟨a, as, hcons⟩ := List.exists_cons_of_ne_nil hf
  constructor
  · simp [Run, hcons, hm]
  · simp [RunLegacy, hcons, hm]

/-- Claim C3 witness: a one-attachment request against a JSON-mode
client fails with the configuration-mismatch error and zero sends. -/
theorem c3_files_require_multipart_witness :
    Run (NewClient "u") none ((NewGraphqlRequest "q").File "f" "a.txt" "bytes") "b"
        (TransportResult.resp 200 none)
      = ⟨[], Except.error RunError.filesWithPostFields⟩ :=
  (c3_files_require_multipart (NewClient "u")
    ((NewGraphqlRequest "q").File "f" "a.txt" "bytes") "b"
    (TransportResult.resp 200 none) (by simp [NewGraphqlRequest, GraphRequest.File]) rfl).1

/-- Claim C4: for every client, request and transport answer, a context
that is already cancelled or expired makes both `Run` forms return that
context's error with zero transport sends; the quantification over
arbitrary attachments and client modes shows the guard precedes the
file/multipart-mode guard. -/
theorem c4_cancelled_context (c : Client) (e : CtxErr) (req : GraphRequest) (b : String)
    (t : TransportResult) :
    Run c (some e) req b t = ⟨[], Except.error (RunError.contextError e)⟩
  ∧ RunLegacy c (some e) req b t
      = ⟨[], none, LegacyOutcome.fail (LegacyRunError.contextError e)⟩ :=
  ⟨rfl, rfl⟩

/-- Claim C4 witness: a cancelled context short-circuits even a request
with files against a JSON-mode client. -/
theorem c4_cancelled_context_witness :
    Run (NewClient "u") (some CtxErr.canceled)
        ((NewGraphqlRequest "q").File "f" "a.txt" "bytes") "b"
        (TransportResult.resp 200 none)
      = ⟨[], Except.error (RunError.contextError CtxErr.canceled)⟩ :=
  (c4_cancelled_context (NewClient "u") CtxErr.canceled
    ((NewGraphqlRequest "q").File "f" "a.txt" "bytes") "b"
    (TransportResult.resp 200 none)).1

/-- Claim C9: the error-model decoder accepts the message member as an
arbitrary JSON value — a plain string and a structured value both
decode without failure, and the value is kept as is. -/
theorem c9_message_any_shape (m : Json) :
    decodeGraphErr (Json.obj [("message", m)]) = some ⟨m, [], [], []⟩
  ∧ (decodeGraphErr (Json.obj [("message", Json.str "not found")])).isSome = true
  ∧ (decodeGraphErr (Json.obj [("message",
        Json.obj [("code", Json.num 5)])])).isSome = true :=
  ⟨rfl, rfl, rfl⟩

/-- Claim C9 witness: the theorem applied at a structured message
value. -/
theorem c9_message_any_shape_witness :
    decodeGraphErr (Json.obj [("message", Json.arr [Json.num 1])])
      = some ⟨Json.arr [Json.num 1], [], [], []⟩ :=
  (c9_message_any_shape (Json.arr [Json.num 1])).1

/-- Claim C5: a JSON-mode execution of a request without attachments
dispatches exactly one request, whose body is the JSON object with the
query under the query key and the variables mapping under the
always-present variables key; a request on which no variable was ever
set encodes its variables as JSON null; and the outgoing Content-Type
starts with the client-owned JSON content type. -/
theorem c5_json_request_body (c : Client) (req : GraphRequest) (b : String)
    (t : TransportResult) (hm : c.useMultipartForm = false) (hf : req.files = []) :
    (Run c none req b t).sends = [buildJSONRequest c req]
  ∧ (buildJSONRequest c req).body
      = ReqBody.json (Json.obj [("query", Json.str req.query),
                                ("variables", varsToJson req.vars)])
  ∧ varsToJson (NewGraphqlRequest req.query).vars = Json.null
  ∧ headerGet (buildJSONRequest c req).headers "Content-Type"
      = jsonContentType :: valsIn req.Header "Content-Type" := by
  refine ⟨?_, rfl, rfl, ?_⟩
  · cases t <;> simp [Run, runWithJSON, hm, hf]
  · exact addHTTPHeaders_contentType req.Header jsonContentType

/-- Claim C5 witness: a concrete variable-free request against a
JSON-mode client sends the expected body with a null variables value
and the JSON content type first. -/
theorem c5_json_request_body_witness :
    (Run (NewClient "u") none (NewGraphqlRequest "q") "b"
        (TransportResult.resp 200 none)).sends
      = [buildJSONRequest (NewClient "u") (NewGraphqlRequest "q")]
  ∧ (buildJSONRequest (NewClient "u") (NewGraphqlRequest "q")).body
      = ReqBody.json (Json.obj [("query", Json.str "q"), ("variables", Json.null)])
  ∧ headerGet (buildJSONRequest (NewClient "u") (NewGraphqlRequest "q")).headers
        "Content-Type" = [jsonContentType] := by
  have h := c5_json_request_body (NewClient "u") (NewGraphqlRequest "q") "b"
    (TransportResult.resp 200 none) rfl rfl
  exact ⟨h.1, h.2.1, h.2.2.2⟩

/-- Claim C6: the multipart body of any request starts with a query
field holding the raw query string, contains a variables field holding
the JSON encoding of the variables mapping exactly when that mapping is
non-empty, and carries one file part per attachment in attachment
order with field name, file name, and content unchanged; a multipart
client dispatches exactly this body. -/
theorem c6_multipart_encoding (req : GraphRequest) (u b : String) (t : TransportResult) :
    partsField (multipartParts req) "query" = some req.query
  ∧ partsJsonField (multipartParts req) "variables"
      = (if varsLen req.vars > 0 then some (Json.obj (req.vars.getD [])) else none)
  ∧ partsFiles (multipartParts req) = req.files.map (fun f => (f.Field, f.Name, f.R))
  ∧ (Run (UseMultipartForm (NewClient u)) none req b t).sends.map OutReq.body
      = [ReqBody.multipart (multipartParts req)] := by
  refine ⟨?_, ?_, ?_, ?_⟩
  · simp [multipartParts, partsField]
  · by_cases hv : varsLen req.vars > 0
    · simp [multipartParts, partsJsonField, hv]
    · simp [multipartParts, partsJsonField, hv, partsJsonField_filePartMap]
  · by_cases hv : varsLen req.vars > 0
    · simp [multipartParts, partsFiles, hv, partsFiles_filePartMap]
    · simp [multipartParts, partsFiles, hv, partsFiles_filePartMap]
  · cases t <;>
      simp [Run, runWithPostFields, buildMultipartRequest, UseMultipartForm, NewClient]

/-- Claim C6 witness: the theorem applied to the spec's round-trip
example, one variable and one file attachment. -/
theorem c6_multipart_encoding_witness :
    partsField (multipartParts (((NewGraphqlRequest "q").Var "key"
        (Json.str "value")).File "f" "a.txt" "bytes")) "query" = some "q"
  ∧ partsJsonField (multipartParts (((NewGraphqlRequest "q").Var "key"
        (Json.str "value")).File "f" "a.txt" "bytes")) "variables"
      = some (Json.obj [("key", Json.str "value")])
  ∧ partsFiles (multipartParts (((NewGraphqlRequest "q").Var "key"
        (Json.str "value")).File "f" "a.txt" "bytes")) = [("f", "a.txt", "bytes")] := by
  have h := c6_multipart_encoding (((NewGraphqlRequest "q").Var "key"
    (Json.str "value")).File "f" "a.txt" "bytes") "u" "b" (TransportResult.resp 200 none)
  exact ⟨h.1, h.2.1, h.2.2.1⟩

/-- Claim C7: merged outgoing headers start with the client-owned
Content-Type (the selected encoder's value) and Accept values, every
request header entry is added on top additively with all values kept
in order, other keys are exactly the request's values, and both Run
modes build their outgoing headers this way. -/
theorem c7_header_merging (hdr : Header) (ct b : String) :
    headerGet (addHTTPHeaders hdr ct) "Content-Type" = ct :: valsIn hdr "Content-Type"
  ∧ headerGet (addHTTPHeaders hdr ct) "Accept"
      = "application/json; charset=utf-8" :: valsIn hdr "Accept"
  ∧ (∀ k, k ≠ "Content-Type" → k ≠ "Accept" →
        headerGet (addHTTPHeaders hdr ct) k = valsIn hdr k)
  ∧ (∀ (c : Client) (req : GraphRequest) (t : TransportResult),
        c.useMultipartForm = false → req.files = [] →
        (Run c none req b t).sends.map OutReq.headers
          = [addHTTPHeaders req.Header jsonContentType])
  ∧ (∀ (c : Client) (req : GraphRequest) (t : TransportResult),
        c.useMultipartForm = true →
        (Run c none req b t).sends.map OutReq.headers
          = [addHTTPHeaders req.Header (formDataContentType b)]) := by
  refine ⟨addHTTPHeaders_contentType hdr ct, addHTTPHeaders_accept hdr ct,
    fun k h1 h2 => addHTTPHeaders_other hdr ct k h1 h2, ?_, ?_⟩
  · intro c req t hm hf
    cases t <;> simp [Run, runWithJSON, buildJSONRequest, hm, hf]
  · intro c req t hm
    cases t <;> simp [Run, runWithPostFields, buildMultipartRequest, hm]

/-- Claim C7 witness: the spec's X-Test example — both values survive
in order next to the client-owned Content-Type and Accept. -/
theorem c7_header_merging_witness :
    headerGet (addHTTPHeaders [("X-Test", ["a", "b"])] jsonContentType) "X-Test"
      = ["a", "b"]
  ∧ headerGet (addHTTPHeaders [("X-Test", ["a", "b"])] jsonContentType) "Content-Type"
      = [jsonContentType] := by
  have h := c7_header_merging [("X-Test", ["a", "b"])] jsonContentType "b"
  refine ⟨?_, ?_⟩
  · have h2 := h.2.2.1 "X-Test" (by decide) (by decide)
    simpa [valsIn] using h2
  · simpa [valsIn] using h.1

/-- Claim C8: a sequence of Var calls on a fresh request produces the
last-write-wins mapping per key, the mapping is nil before the first
call and allocated from the first call on, and a JSON-mode execution
sends exactly that mapping under the variables key. -/
theorem c8_var_last_write_wins (q u b : String) (t : TransportResult)
    (calls : List (String × Json)) (k : String) :
    varsLookup (applyVars (NewGraphqlRequest q) calls).vars k
      = calls.foldl (fun acc kv => if kv.1 = k then some kv.2 else acc) none
  ∧ (NewGraphqlRequest q).vars = none
  ∧ (calls ≠ [] → (applyVars (NewGraphqlRequest q) calls).vars ≠ none)
  ∧ (Run (NewClient u) none (applyVars (NewGraphqlRequest q) calls) b t).sends.map
        OutReq.body
      = [ReqBody.json (Json.obj [("query", Json.str q),
            ("variables", varsToJson (applyVars (NewGraphqlRequest q) calls).vars)])] := by
  refine ⟨?_, rfl, ?_, ?_⟩
  · rw [varsLookup_applyVars]
    rfl
  · intro hne
    obtain ⟨kv, rest, hcons⟩ := List.exists_cons_of_ne_nil hne
    subst hcons
    have h1 : applyVars (NewGraphqlRequest q) (kv :: rest)
        = applyVars ((NewGraphqlRequest q).Var kv.1 kv.2) rest := rfl
    rw [h1]
    have h2 := applyVars_vars_isSome rest ((NewGraphqlRequest q).Var kv.1 kv.2)
      (Var_vars_isSome (NewGraphqlRequest q) kv.1 kv.2)
    exact Option.ne_none_iff_isSome.mpr h2
  · have hf : (applyVars (NewGraphqlRequest q) calls).files = [] :=
      applyVars_files calls (NewGraphqlRequest q)
    have hq : (applyVars (NewGraphqlRequest q) calls).query = q :=
      applyVars_query calls (NewGraphqlRequest q)
    cases t <;>
      simp [Run, runWithJSON, buildJSONRequest, graphqlModel, NewClient, hf, hq]

/-- Claim C8 witness: two writes to the same key — the second wins, the
mapping is allocated, and the sent JSON body carries it. -/
theorem c8_var_last_write_wins_witness :
    varsLookup (applyVars (NewGraphqlRequest "q")
        [("k", Json.num 1), ("k", Json.num 2)]).vars "k" = some (Json.num 2)
  ∧ (applyVars (NewGraphqlRequest "q") [("k", Json.num 1), ("k", Json.num 2)]).vars
      ≠ none
  ∧ (Run (NewClient "u") none
        (applyVars (NewGraphqlRequest "q") [("k", Json.num 1), ("k", Json.num 2)]) "b"
        (TransportResult.resp 200 none)).sends.map OutReq.body
      = [ReqBody.json (Json.obj [("query", Json.str "q"),
            ("variables", Json.obj [("k", Json.num 2)])])] := by
  have h := c8_var_last_write_wins "q" "u" "b" (TransportResult.resp 200 none)
    [("k", Json.num 1), ("k", Json.num 2)] "k"
  refine ⟨?_, h.2.2.1 (by simp), ?_⟩
  · simpa using h.1
  · simpa using h.2.2.2

/-- Claim C1 counterexample: a multipart-mode unified `Run` receiving
HTTP 500 with the well-formed body `{}` returns the parsed envelope as
success instead of an HTTP-status error — the claimed status
precedence does not hold in multipart mode. -/
theorem c1_counterexample :
    (Run (UseMultipartForm (NewClient "u")) none (NewGraphqlRequest "q") "b"
        (TransportResult.resp 500 (some (Json.obj [])))).outcome
      = Except.ok (some ⟨Json.null, []⟩) := rfl

/-- Claim C1 (amended): in JSON mode a non-200 status always yields the
HTTP-status error carrying the code, in both calling conventions and
whatever the body holds; in multipart mode the status error is
returned only when the envelope decode fails — a body that decodes
successfully is returned as success despite the non-200 status. -/
theorem c1_http_status_precedence (c : Client) (req : GraphRequest) (b : String)
    (status : Nat) (body : Option Json) (hs : status ≠ 200) :
    (c.useMultipartForm = false → req.files = [] →
        (Run c none req b (TransportResult.resp status body)).outcome
            = Except.error (RunError.serverNonOK status)
      ∧ (RunLegacy c none req b (TransportResult.resp status body)).outcome
            = LegacyOutcome.fail (LegacyRunError.serverNonOK status))
  ∧ (c.useMultipartForm = true →
        ∀ gr, envelopeOf decodeGraphResponse body = EnvelopeOutcome.ok gr →
        (Run c none req b (TransportResult.resp status body)).outcome
            = Except.ok (some gr))
  ∧ (c.useMultipartForm = true →
        envelopeOf decodeGraphResponse body = EnvelopeOutcome.decodeFail →
        (Run c none req b (TransportResult.resp status body)).outcome
            = Except.error (RunError.serverNonOK status)) := by
  refine ⟨fun hm hf => ⟨?_, ?_⟩, fun hm gr hd => ?_, fun hm hd => ?_⟩
  · simp [Run, runWithJSON, hm, hf, hs]
  · simp [RunLegacy, legacyRunWithJSON, hm, hf, hs]
  · simp [Run, runWithPostFields, hm, hd]
  · simp [Run, runWithPostFields, hm, hd, hs]

/-- Claim C1 witness: HTTP 500 — a JSON-mode call fails with the status
error, and a multipart call whose body is not valid JSON does too. -/
theorem c1_http_status_precedence_witness :
    (Run (NewClient "u") none (NewGraphqlRequest "q") "b"
        (TransportResult.resp 500 none)).outcome
      = Except.error (RunError.serverNonOK 500)
  ∧ (Run (UseMultipartForm (NewClient "v")) none (NewGraphqlRequest "q") "b2"
        (TransportResult.resp 500 (some (Json.str "oops")))).outcome
      = Except.error (RunError.serverNonOK 500) := by
  constructor
  · exact ((c1_http_status_precedence (NewClient "u") (NewGraphqlRequest "q") "b"
      500 none (by decide)).1 rfl rfl).1
  · exact (c1_http_status_precedence (UseMultipartForm (NewClient "v"))
      (NewGraphqlRequest "q") "b2" 500 (some (Json.str "oops")) (by decide)).2.2 rfl rfl

/-- Claim C2 counterexample: the unified `Run` at HTTP 200 with the
spec's one-error body returns the envelope as plain success — no
call-level error carries the first error of the list. -/
theorem c2_counterexample :
    (Run (NewClient "u") none (NewGraphqlRequest "q") "b"
        (TransportResult.resp 200 (some sampleErrorBody))).outcome
      = Except.ok (some ⟨Json.null, [sampleGraphErr]⟩) := rfl

/-- Claim C2 (amended): for every `Run` call in either mode that passes
the file guard, at HTTP 200 with a decoded envelope whose error list is
non-empty, the legacy `Run` surfaces the first error of the list as the
call's error result, while the unified `Run` surfaces no call-level
error and instead returns the envelope on which the full ordered error
list remains available. -/
theorem c2_first_error_surfacing (c : Client) (req : GraphRequest) (b : String)
    (body : Option Json) (hguard : req.files = [] ∨ c.useMultipartForm = true)
    (gr : GraphResponse) (e : GraphErr) (rest : List GraphErr)
    (hd : envelopeOf decodeGraphResponse body = EnvelopeOutcome.ok gr)
    (he : gr.Errors = e :: rest)
    (lgr : graphResponse) (le : graphErr) (lrest : List graphErr)
    (hld : envelopeOf decodeLegacyResponse body = EnvelopeOutcome.ok lgr)
    (hle : lgr.Errors = le :: lrest) :
    (Run c none req b (TransportResult.resp 200 body)).outcome = Except.ok (some gr)
  ∧ (RunLegacy c none req b (TransportResult.resp 200 body)).outcome
      = LegacyOutcome.fail (LegacyRunError.graphQLError le) := by
  cases hmode : c.useMultipartForm with
  | true =>
      constructor
      · simp [Run, runWithPostFields, hmode, hd]
      · simp [RunLegacy, legacyRunWithPostFields, hmode, hld, hle]
  | false =>
      have hfe : req.files = [] := by
        rcases hguard with h | h
        · exact h
        · rw [hmode] at h
          exact absurd h (by simp)
      constructor
      · simp [Run, runWithJSON, hmode, hfe, hd]
      · simp [RunLegacy, legacyRunWithJSON, hmode, hfe, hld, hle]

/-- Claim C2 witness: the spec's sample body at HTTP 200, in JSON mode
and in multipart mode — both unified calls succeed with the one-error
envelope, both legacy calls fail with that first error. -/
theorem c2_first_error_surfacing_witness :
    ((Run (NewClient "u") none (NewGraphqlRequest "q") "b"
        (TransportResult.resp 200 (some sampleErrorBody))).outcome
      = Except.ok (some ⟨Json.null, [sampleGraphErr]⟩)
  ∧ (RunLegacy (NewClient "u") none (NewGraphqlRequest "q") "b"
        (TransportResult.resp 200 (some sampleErrorBody))).outcome
      = LegacyOutcome.fail (LegacyRunError.graphQLError ⟨"not found", []⟩))
  ∧ ((Run (UseMultipartForm (NewClient "u")) none (NewGraphqlRequest "q") "b"
        (TransportResult.resp 200 (some sampleErrorBody))).outcome
      = Except.ok (some ⟨Json.null, [sampleGraphErr]⟩)
  ∧ (RunLegacy (UseMultipartForm (NewClient "u")) none (NewGraphqlRequest "q") "b"
        (TransportResult.resp 200 (some sampleErrorBody))).outcome
      = LegacyOutcome.fail (LegacyRunError.graphQLError ⟨"not found", []⟩)) :=
  ⟨c2_first_error_surfacing (NewClient "u") (NewGraphqlRequest "q") "b"
      (some sampleErrorBody) (Or.inl rfl)
      ⟨Json.null, [sampleGraphErr]⟩ sampleGraphErr [] rfl rfl
      ⟨Json.null, [⟨"not found", []⟩]⟩ ⟨"not found", []⟩ [] rfl rfl,
   c2_first_error_surfacing (UseMultipartForm (NewClient "u")) (NewGraphqlRequest "q")
      "b" (some sampleErrorBody) (Or.inr rfl)
      ⟨Json.null, [sampleGraphErr]⟩ sampleGraphErr [] rfl rfl
      ⟨Json.null, [⟨"not found", []⟩]⟩ ⟨"not found", []⟩ [] rfl rfl⟩

/-- Claim C10 counterexample: a legacy multipart call receiving HTTP
500 with the well-formed body `{}` neither unmarshals anything into the
error-shape target nor returns the non-200 status error — it returns
plain success. -/
theorem c10_counterexample :
    (RunLegacy (UseMultipartForm (NewClient "u")) none (NewGraphqlRequest "q") "b"
        (TransportResult.resp 500 (some (Json.obj [])))).outcome = LegacyOutcome.success
  ∧ (RunLegacy (UseMultipartForm (NewClient "u")) none (NewGraphqlRequest "q") "b"
        (TransportResult.resp 500 (some (Json.obj [])))).errorTarget = none :=
  ⟨rfl, rfl⟩

/-- Claim C10 (amended): in the legacy convention the best-effort
unmarshal into the error-shape target happens in JSON mode whenever the
status is non-200, and in multipart mode only when the envelope decode
also fails; there the target receives the body's JSON value when it
parses and is left unmodified when it does not, the unmarshal failure
is silently discarded, and the non-200 status error is returned.  When
a multipart body decodes as the envelope, the target is untouched and
no status error is returned. -/
theorem c10_best_effort_error_target (c : Client) (req : GraphRequest) (b : String)
    (status : Nat) (body : Option Json) (hs : status ≠ 200) :
    (c.useMultipartForm = false → req.files = [] →
        RunLegacy c none req b (TransportResult.resp status body)
          = ⟨[buildJSONRequest c req], body,
             LegacyOutcome.fail (LegacyRunError.serverNonOK status)⟩)
  ∧ (c.useMultipartForm = true →
        envelopeOf decodeLegacyResponse body = EnvelopeOutcome.decodeFail →
        RunLegacy c none req b (TransportResult.resp status body)
          = ⟨[buildMultipartRequest c req b], body,
             LegacyOutcome.fail (LegacyRunError.serverNonOK status)⟩)
  ∧ (c.useMultipartForm = true →
        ∀ lgr, envelopeOf decodeLegacyResponse body = EnvelopeOutcome.ok lgr →
        (RunLegacy c none req b (TransportResult.resp status body)).errorTarget
          = none) := by
  refine ⟨fun hm hf => ?_, fun hm hd => ?_, fun hm lgr hd => ?_⟩
  · simp [RunLegacy, legacyRunWithJSON, hm, hf, hs]
  · simp [RunLegacy, legacyRunWithPostFields, hm, hd, hs]
  · cases hgr : lgr.Errors <;>
      simp [RunLegacy, legacyRunWithPostFields, hm, hd, hgr]

/-- Claim C10 witness: a legacy JSON-mode call at HTTP 500 with a body
that is not valid JSON — the target stays unmodified, the discard is
silent, and the status error is returned; with a parseable body the
target receives it. -/
theorem c10_best_effort_error_target_witness :
    RunLegacy (NewClient "u") none (NewGraphqlRequest "q") "b"
        (TransportResult.resp 500 none)
      = ⟨[buildJSONRequest (NewClient "u") (NewGraphqlRequest "q")], none,
         LegacyOutcome.fail (LegacyRunError.serverNonOK 500)⟩
  ∧ RunLegacy (NewClient "u") none (NewGraphqlRequest "q") "b"
        (TransportResult.resp 500 (some (Json.str "oops")))
      = ⟨[buildJSONRequest (NewClient "u") (NewGraphqlRequest "q")],
         some (Json.str "oops"),
         LegacyOutcome.fail (LegacyRunError.serverNonOK 500)⟩ := by
  constructor
  · exact (c10_best_effort_error_target (NewClient "u") (NewGraphqlRequest "q") "b"
      500 none (by decide)).1 rfl rfl
  · exact (c10_best_effort_error_target (NewClient "u") (NewGraphqlRequest "q") "b"
      500 (some (Json.str "oops")) (by decide)).1 rfl rfl

end GraphqlClient
